import Mathlib

/-!
Verification development for the GITHUB_HELPER repository.

The repository consists of five GitHub REST-API query functions
(`get_repo_info`, `get_repo_structure`, `get_file_content`, `get_issues`,
`get_pull_requests`, in `app.py` and duplicated in `github_agent.py` /
`cli.py`), a FastAPI chat endpoint (`app.py`, `/api/chat`), and a CLI chat
loop (`cli.py`, `CLI.chat`).  This file is a shallow embedding of those
parts of the code: JSON values returned by the GitHub API are modelled by
`PyVal`, Python-level exceptions by the `Except String` monad, the HTTP
client by a pure oracle `GetRequest → HttpResponse`, and each query
function additionally returns the list of GET requests it issued.
-/

/-- Python/JSON values, as produced by `response.json()`. -/
inductive PyVal where
  | null
  | bool (b : Bool)
  | int (n : Int)
  | str (s : String)
  | list (xs : List PyVal)
  | dict (fields : List (String × PyVal))

/-- Computations that may raise a Python exception; the error carries the
exception's description. -/
abbrev Py (α : Type) : Type := Except String α

/-- First value bound to key `k` in an association list (Python dicts have
unique keys, so this is dict lookup). -/
def lookupKey (fs : List (String × PyVal)) (k : String) : Option PyVal :=
  (fs.find? (fun kv => kv.1 == k)).map (fun kv => kv.2)

/-- Field of a dict value, `none` for missing keys and non-dicts. -/
def field? (v : PyVal) (k : String) : Option PyVal :=
  match v with
  | .dict fs => lookupKey fs k
  | _ => none

/-- Python `v[k]` for a string key: KeyError on a missing key, TypeError on
a non-dict. -/
def getItem (v : PyVal) (k : String) : Py PyVal :=
  match v with
  | .dict fs =>
    match lookupKey fs k with
    | some x => Except.ok x
    | none => Except.error ("KeyError: " ++ k)
  | _ => Except.error "TypeError: value is not subscriptable by a string key"

/-- Python `v.get(k, default)`: AttributeError on a non-dict. -/
def dictGet (v : PyVal) (k : String) (default : PyVal) : Py PyVal :=
  match v with
  | .dict fs => Except.ok ((lookupKey fs k).getD default)
  | _ => Except.error "AttributeError: object has no attribute get"

/-- Whether the substring `n` occurs in `h` (Python `n in h` on strings). -/
def hasSub (n : List Char) : List Char → Bool
  | [] => n.isEmpty
  | c :: t => n.isPrefixOf (c :: t) || hasSub n t

/-- Python equality of a JSON value against a string literal. -/
def pyEqStr (v : PyVal) (s : String) : Bool :=
  match v with
  | .str t => t == s
  | _ => false

/-- Python `needle in v`: key containment for dicts, substring for strings,
membership for lists, TypeError otherwise. -/
def pyInStr (needle : String) (v : PyVal) : Py Bool :=
  match v with
  | .dict fs => Except.ok ((lookupKey fs needle).isSome)
  | .str s => Except.ok (hasSub needle.data s.data)
  | .list xs => Except.ok (xs.any (fun x => pyEqStr x needle))
  | _ => Except.error "TypeError: argument of type is not iterable"

/-- Python truthiness. -/
def pyTruthy : PyVal → Bool
  | .null => false
  | .bool b => b
  | .int n => n != 0
  | .str s => !s.isEmpty
  | .list xs => !xs.isEmpty
  | .dict fs => !fs.isEmpty

/-- A numeric operand (Python arithmetic accepts ints and bools). -/
def asNum : PyVal → Py Int
  | .int n => Except.ok n
  | .bool b => Except.ok (if b then 1 else 0)
  | _ => Except.error "TypeError: unsupported operand type for division"

/-- A string operand. -/
def asStr : PyVal → Py String
  | .str s => Except.ok s
  | _ => Except.error "TypeError: expected a string"

/-- Python iteration (`for x in v`): elements of a list, keys of a dict,
characters of a string; TypeError otherwise. -/
def asIterList : PyVal → Py (List PyVal)
  | .list xs => Except.ok xs
  | .dict fs => Except.ok (fs.map (fun kv => PyVal.str kv.1))
  | .str s => Except.ok (s.data.map (fun c => PyVal.str (String.singleton c)))
  | _ => Except.error "TypeError: object is not iterable"

/-- Python `sep.join(xs)` for a list of strings. -/
def pyJoin (sep : String) : List String → String
  | [] => ""
  | [x] => x
  | x :: xs => x ++ sep ++ pyJoin sep xs

/-- The apostrophe character, used by Python `repr` of strings. -/
def quoteChar : Char := Char.ofNat 39

mutual

/-- Python `repr`, as used when `str` is applied to containers.  String
escaping inside `repr` is not reproduced (no claim renders a container
holding special characters). -/
def pyRepr : PyVal → String
  | .null => "None"
  | .bool true => "True"
  | .bool false => "False"
  | .int n => toString n
  | .str s => String.singleton quoteChar ++ s ++ String.singleton quoteChar
  | .list xs => "[" ++ pyReprList xs ++ "]"
  | .dict fs => "\x7b" ++ pyReprDict fs ++ "\x7d"

/-- Comma-separated `repr`s of list elements. -/
def pyReprList : List PyVal → String
  | [] => ""
  | [x] => pyRepr x
  | x :: xs => pyRepr x ++ ", " ++ pyReprList xs

/-- Comma-separated `repr`s of dict entries. -/
def pyReprDict : List (String × PyVal) → String
  | [] => ""
  | [kv] => String.singleton quoteChar ++ kv.1 ++ String.singleton quoteChar ++ ": " ++ pyRepr kv.2
  | kv :: fs =>
    String.singleton quoteChar ++ kv.1 ++ String.singleton quoteChar ++ ": " ++ pyRepr kv.2
      ++ ", " ++ pyReprDict fs

end

/-- Python `str(v)`, the rendering used by f-string interpolation. -/
def pyStr (v : PyVal) : String :=
  match v with
  | .str s => s
  | _ => pyRepr v

/-- Helper for `fmtDiv1024`: formats `t / 10 / 1024` (so `t` is the size
multiplied by ten) with one decimal digit, rounding half to even. -/
def fmtDiv1024N (t : Nat) : String :=
  let q := t / 1024
  let r := t % 1024
  let rounded := if 512 < r then q + 1 else if r < 512 then q else if q % 2 = 0 then q else q + 1
  toString (rounded / 10) ++ "." ++ toString (rounded % 10)

/-- Python `f"\x7bn / 1024:.1f\x7d"` for an integer `n` (the `Size:` line of
`get_repo_info`).  For `0 ≤ n < 2 ^ 43` the float `n / 1024` is exact, so
formatting it to one decimal digit rounds the rational `n / 1024` half to
even, which is what this computes. -/
def fmtDiv1024 (n : Int) : String :=
  if n < 0 then "-" ++ fmtDiv1024N (n.natAbs * 10) else fmtDiv1024N (n.natAbs * 10)

/-! ## The URL pattern

Every query function begins with
`re.search(r'github\.com[:/]([^/]+)/([^/]+?)(?:\.git)?$', github_url)`.
The following functions reproduce that search: `repoMatch` is the
tail `([^/]+?)(?:\.git)?$` (lazy group, optional suffix, `$` matching at the
end of the string or before a final newline), `ownerSplit` is the greedy
`([^/]+)/` (which must stop at the first slash), and `searchFrom` tries
successive start positions from the left, as `re.search` does. -/

/-- Positions at which `(?:\.git)?$` accepts the whole remainder: the
optional `.git` followed by Python `$` (end of string, or just before a
final newline). -/
def endOk (rest : List Char) : Bool :=
  rest == [] || rest == ['\n'] || rest == ".git".data || rest == ".git\n".data

/-- Lazy matching of `([^/]+?)(?:\.git)?$` against the remainder: the
shortest nonempty slash-free prefix whose remainder is accepted by
`endOk`. `acc` holds the characters consumed so far. -/
def repoMatchAux (acc : List Char) : List Char → Option (List Char)
  | [] => none
  | c :: rest =>
    if c = '/' then none
    else if endOk rest then some (acc ++ [c])
    else repoMatchAux (acc ++ [c]) rest

/-- The repo-name group of the URL pattern. -/
def repoMatch (t : List Char) : Option (List Char) :=
  repoMatchAux [] t

/-- The owner group `([^/]+)/`: a greedy nonempty run of non-slash
characters, which necessarily extends to the first slash, followed by the
literal slash. Returns the owner and the remainder after the slash. -/
def ownerSplit (cs : List Char) : Option (List Char × List Char) :=
  let owner := cs.takeWhile (fun c => c ≠ '/')
  let rest := cs.dropWhile (fun c => c ≠ '/')
  if owner.isEmpty then none
  else
    match rest with
    | [] => none
    | _ :: t => some (owner, t)

/-- Attempt to match the whole pattern at the current position. -/
def tryAt (s : List Char) : Option (List Char × List Char) :=
  if "github.com".data.isPrefixOf s then
    match s.drop "github.com".data.length with
    | [] => none
    | sep :: rest =>
      if sep = ':' || sep = '/' then
        match ownerSplit rest with
        | none => none
        | some (owner, t) =>
          match repoMatch t with
          | none => none
          | some repo => some (owner, repo)
      else none
  else none

/-- `re.search`: try each start position from the left. -/
def searchFrom : List Char → Option (List Char × List Char)
  | [] => none
  | c :: rest =>
    match tryAt (c :: rest) with
    | some r => some r
    | none => searchFrom rest

/-- `re.search(r'github\.com[:/]([^/]+)/([^/]+?)(?:\.git)?$', url)`, as the
pair of captured groups `(owner, repo)`. -/
def searchGithub (url : String) : Option (String × String) :=
  match searchFrom url.data with
  | some (owner, repo) => some (String.mk owner, String.mk repo)
  | none => none

/-! ## HTTP model

The tools issue GET requests through `ctx.deps.client`.  A request is the
URL together with the optional `Authorization` header value; the client is
a pure oracle from requests to responses.  `response.text` is the raw body
and `response.json` its parsed JSON value (the functions only read `json`
on a 200 status, where the body of the modelled endpoints is JSON).  Each
tool function returns its result together with the list of requests it
issued, in order. -/

/-- An HTTP GET request: the URL and the optional Authorization header. -/
structure GetRequest where
  url : String
  auth : Option String
deriving DecidableEq

/-- An HTTP response, with the parsed JSON body alongside the raw text. -/
structure HttpResponse where
  status_code : Nat
  text : String
  json : PyVal

/-- `{'Authorization': f'token {github_token}'} if ctx.deps.github_token
else {}`: the header is present only when the token is a truthy
(nonempty) string. -/
def authHeader (github_token : Option String) : Option String :=
  match github_token with
  | some t => if t = "" then none else some ("token " ++ t)
  | none => none

/-- The request of `get_repo_info`. -/
def repoInfoRequest (owner repo : String) (tok : Option String) : GetRequest :=
  ⟨s!"https://api.github.com/repos/{owner}/{repo}", authHeader tok⟩

/-- The request of `get_repo_structure` for one branch. -/
def repoTreeRequest (owner repo branch : String) (tok : Option String) : GetRequest :=
  ⟨s!"https://api.github.com/repos/{owner}/{repo}/git/trees/{branch}?recursive=1", authHeader tok⟩

/-- The request of `get_file_content`. -/
def fileContentRequest (owner repo file_path : String) (tok : Option String) : GetRequest :=
  ⟨s!"https://api.github.com/repos/{owner}/{repo}/contents/{file_path}", authHeader tok⟩

/-- The request of `get_issues`. -/
def issuesRequest (owner repo state : String) (tok : Option String) : GetRequest :=
  ⟨s!"https://api.github.com/repos/{owner}/{repo}/issues?state={state}&per_page=10", authHeader tok⟩

/-- The request of `get_pull_requests`. -/
def pullsRequest (owner repo state : String) (tok : Option String) : GetRequest :=
  ⟨s!"https://api.github.com/repos/{owner}/{repo}/pulls?state={state}&per_page=10", authHeader tok⟩

/-! ## get_repo_info -/

/-- The string elements of an iterated list, raising the TypeError that
`str.join` raises on a non-string element. -/
def strList : List PyVal → Py (List String)
  | [] => Except.ok []
  | .str s :: rest => do
    let ss ← strList rest
    pure (s :: ss)
  | _ :: _ => Except.error "TypeError: sequence item: expected str instance"

/-- `", ".join(data.get('topics', [])) if 'topics' in data else "No topics"`. -/
def topicsComp (data : PyVal) : Py String := do
  let present ← pyInStr "topics" data
  if present then do
    let tv ← dictGet data "topics" (PyVal.list [])
    match tv with
    | .list xs => do
      let ss ← strList xs
      pure (pyJoin ", " ss)
    | .dict fs => pure (pyJoin ", " (fs.map (fun kv => kv.1)))
    | .str s => pure (pyJoin ", " (s.data.map String.singleton))
    | _ => Except.error "TypeError: can only join an iterable"
  else pure "No topics"

/-- The license lines of `get_repo_info`:
`license_info = data.get('license', None)` followed by
`license_info.get('name', 'No license available')` when truthy. -/
def licenseComp (data : PyVal) : Py PyVal := do
  let lraw ← dictGet data "license" PyVal.null
  if pyTruthy lraw then dictGet lraw "name" (PyVal.str "No license available")
  else pure (PyVal.str "No license available")

/-- The 200-status body of `get_repo_info` (`app.py` lines 83-118): field
reads in source order, then the returned f-string. -/
def repoInfoBody (owner repo : String) (data : PyVal) : Py String := do
  let sizeV ← getItem data "size"
  let size ← asNum sizeV
  let size_mb := fmtDiv1024 size
  let ownerV ← getItem data "owner"
  let owner_name ← getItem ownerV "login"
  let forks_count ← getItem data "forks_count"
  let open_issues_count ← getItem data "open_issues_count"
  let pull_requests_url := s!"https://github.com/{owner}/{repo}/pulls"
  let default_branch ← getItem data "default_branch"
  let visibility ← getItem data "visibility"
  let topics ← topicsComp data
  let license_info ← licenseComp data
  let full_name ← getItem data "full_name"
  let description ← getItem data "description"
  let stars ← getItem data "stargazers_count"
  let language ← getItem data "language"
  let created_at ← getItem data "created_at"
  let updated_at ← getItem data "updated_at"
  pure ("Repository: " ++ pyStr full_name ++ "\n" ++
        "Owner: " ++ pyStr owner_name ++ "\n" ++
        "Description: " ++ pyStr description ++ "\n" ++
        "Size: " ++ size_mb ++ "MB\n" ++
        "Stars: " ++ pyStr stars ++ "\n" ++
        "Forks: " ++ pyStr forks_count ++ "\n" ++
        "Open Issues: " ++ pyStr open_issues_count ++ "\n" ++
        "Pull Requests: " ++ pull_requests_url ++ "\n" ++
        "Language: " ++ pyStr language ++ "\n" ++
        "Created: " ++ pyStr created_at ++ "\n" ++
        "Last Updated: " ++ pyStr updated_at ++ "\n" ++
        "Default Branch: " ++ pyStr default_branch ++ "\n" ++
        "Visibility: " ++ pyStr visibility ++ "\n" ++
        "Topics: " ++ topics ++ "\n" ++
        "License: " ++ pyStr license_info)

/-- `get_repo_info` (`app.py` lines 66-118): parse the URL, issue one GET,
and format the result.  The second component is the list of GET requests
issued. -/
def get_repo_info (client : GetRequest → HttpResponse) (github_token : Option String)
    (github_url : String) : Py String × List GetRequest :=
  match searchGithub github_url with
  | none => (Except.ok "Invalid GitHub URL format.", [])
  | some (owner, repo) =>
    let req := repoInfoRequest owner repo github_token
    let response := client req
    if response.status_code ≠ 200 then
      (Except.ok ("Failed to get repository info: " ++ response.text), [req])
    else
      (repoInfoBody owner repo response.json, [req])

/-! ## get_repo_structure -/

/-- Whether a tree path contains one of the excluded directory substrings
(`any(excluded in item['path'] for excluded in [...])`). -/
def excludedPath (path : String) : Bool :=
  hasSub ".git/".data path.data || hasSub "node_modules/".data path.data ||
    hasSub "__pycache__/".data path.data

/-- The loop of `get_repo_structure` (`app.py` lines 147-151): one line per
non-excluded item, a folder or file marker followed by the path. -/
def structureLines : List PyVal → Py (List String)
  | [] => Except.ok []
  | item :: rest => do
    let pathV ← getItem item "path"
    let path ← asStr pathV
    if excludedPath path then structureLines rest
    else do
      let ty ← getItem item "type"
      let line := (if pyEqStr ty "tree" then "📁 " else "📄 ") ++ path
      let restL ← structureLines rest
      pure (line :: restL)

/-- The 200-status body of `get_repo_structure` (`app.py` lines 143-152). -/
def repoStructureBody (data : PyVal) : Py String := do
  let treeV ← getItem data "tree"
  let tree ← asIterList treeV
  let lines ← structureLines tree
  pure (pyJoin "\n" lines)

/-- `get_repo_structure` (`app.py` lines 120-152): GET the main-branch
tree, fall back to the master branch on a non-200 status, and format the
tree of the first 200 response. -/
def get_repo_structure (client : GetRequest → HttpResponse) (github_token : Option String)
    (github_url : String) : Py String × List GetRequest :=
  match searchGithub github_url with
  | none => (Except.ok "Invalid GitHub URL format", [])
  | some (owner, repo) =>
    let req1 := repoTreeRequest owner repo "main" github_token
    let response1 := client req1
    if response1.status_code ≠ 200 then
      let req2 := repoTreeRequest owner repo "master" github_token
      let response2 := client req2
      if response2.status_code ≠ 200 then
        (Except.ok ("Failed to get repository structure: " ++ response2.text), [req1, req2])
      else
        (repoStructureBody response2.json, [req1, req2])
    else
      (repoStructureBody response1.json, [req1])

/-! ## get_file_content

`base64.b64decode(data['content']).decode('utf-8')` is modelled by a
base64 decoder (standard alphabet; characters outside the alphabet and the
padding sign are discarded first, as `b64decode` does with its default
`validate=False`; a leftover group that is not a full padded quadruple
raises) followed by a strict UTF-8 decoder. -/

/-- Value of a character in the standard base64 alphabet. -/
def b64val (c : Char) : Option Nat :=
  if 'A' ≤ c ∧ c ≤ 'Z' then some (c.toNat - 'A'.toNat)
  else if 'a' ≤ c ∧ c ≤ 'z' then some (c.toNat - 'a'.toNat + 26)
  else if '0' ≤ c ∧ c ≤ '9' then some (c.toNat - '0'.toNat + 52)
  else if c = '+' then some 62
  else if c = '/' then some 63
  else none

/-- Decode a base64 quadruple sequence into bytes; `'='` padding is
accepted in the last quadruple only. -/
def b64quads : List Char → Py (List Nat)
  | [] => Except.ok []
  | c1 :: c2 :: c3 :: c4 :: rest =>
    match b64val c1, b64val c2 with
    | some v1, some v2 =>
      if c3 = '=' ∧ c4 = '=' ∧ rest = [] then
        Except.ok [v1 * 4 + v2 / 16]
      else if c4 = '=' ∧ rest = [] then
        match b64val c3 with
        | some v3 => Except.ok [v1 * 4 + v2 / 16, (v2 % 16) * 16 + v3 / 4]
        | none => Except.error "binascii.Error: Invalid base64-encoded string"
      else
        match b64val c3, b64val c4 with
        | some v3, some v4 => do
          let bs ← b64quads rest
          pure ([v1 * 4 + v2 / 16, (v2 % 16) * 16 + v3 / 4, (v3 % 4) * 64 + v4] ++ bs)
        | _, _ => Except.error "binascii.Error: Invalid base64-encoded string"
    | _, _ => Except.error "binascii.Error: Invalid base64-encoded string"
  | _ => Except.error "binascii.Error: Invalid padding"

/-- `base64.b64decode(s)`: the argument must be ASCII; characters outside
the alphabet and `'='` are discarded, then the quadruples are decoded. -/
def b64decode (s : String) : Py (List Nat) :=
  if s.data.all (fun c => c.toNat < 128) then
    b64quads (s.data.filter (fun c => (b64val c).isSome || c = '='))
  else Except.error "ValueError: string argument should contain only ASCII characters"

/-- Whether a byte is a UTF-8 continuation byte. -/
def isCont (b : Nat) : Bool := 128 ≤ b ∧ b ≤ 191

/-- Strict UTF-8 decoding of a byte sequence (Python `bytes.decode('utf-8')`);
overlong encodings, surrogates and out-of-range sequences are rejected by
the byte-range checks. -/
def utf8decode : List Nat → Py (List Char)
  | [] => Except.ok []
  | b :: rest =>
    if b < 128 then do
      let cs ← utf8decode rest
      pure (Char.ofNat b :: cs)
    else if 194 ≤ b ∧ b ≤ 223 then
      match rest with
      | b2 :: rest2 =>
        if isCont b2 then do
          let cs ← utf8decode rest2
          pure (Char.ofNat ((b - 192) * 64 + (b2 - 128)) :: cs)
        else Except.error "UnicodeDecodeError: invalid continuation byte"
      | [] => Except.error "UnicodeDecodeError: unexpected end of data"
    else if 224 ≤ b ∧ b ≤ 239 then
      match rest with
      | b2 :: b3 :: rest3 =>
        let lo2 := if b = 224 then 160 else 128
        let hi2 := if b = 237 then 159 else 191
        if (lo2 ≤ b2 ∧ b2 ≤ hi2) ∧ isCont b3 then do
          let cs ← utf8decode rest3
          pure (Char.ofNat ((b - 224) * 4096 + (b2 - 128) * 64 + (b3 - 128)) :: cs)
        else Except.error "UnicodeDecodeError: invalid continuation byte"
      | _ => Except.error "UnicodeDecodeError: unexpected end of data"
    else if 240 ≤ b ∧ b ≤ 244 then
      match rest with
      | b2 :: b3 :: b4 :: rest4 =>
        let lo2 := if b = 240 then 144 else 128
        let hi2 := if b = 244 then 143 else 191
        if (lo2 ≤ b2 ∧ b2 ≤ hi2) ∧ isCont b3 ∧ isCont b4 then do
          let cs ← utf8decode rest4
          pure (Char.ofNat ((b - 240) * 262144 + (b2 - 128) * 4096 + (b3 - 128) * 64 + (b4 - 128)) :: cs)
        else Except.error "UnicodeDecodeError: invalid continuation byte"
      | _ => Except.error "UnicodeDecodeError: unexpected end of data"
    else Except.error "UnicodeDecodeError: invalid start byte"

/-- `base64.b64decode(s).decode('utf-8')`. -/
def b64utf8 (s : String) : Py String := do
  let bs ← b64decode s
  let cs ← utf8decode bs
  pure (String.mk cs)

/-- The 200-status body of `get_file_content` (`app.py` lines 171-177). -/
def fileContentBody (file_path : String) (data : PyVal) : Py String := do
  let ty ← dictGet data "type" PyVal.null
  if ¬ pyEqStr ty "file" then pure "The path does not point to a file"
  else do
    let contentV ← getItem data "content"
    let contentS ← asStr contentV
    let content ← b64utf8 contentS
    pure ("File: " ++ file_path ++ "\n\n" ++ content)

/-- `get_file_content` (`app.py` lines 154-177). -/
def get_file_content (client : GetRequest → HttpResponse) (github_token : Option String)
    (github_url : String) (file_path : String) : Py String × List GetRequest :=
  match searchGithub github_url with
  | none => (Except.ok "Invalid GitHub URL format", [])
  | some (owner, repo) =>
    let req := fileContentRequest owner repo file_path github_token
    let response := client req
    if response.status_code ≠ 200 then
      (Except.ok ("Failed to get file content: " ++ response.text), [req])
    else
      (fileContentBody file_path response.json, [req])

/-! ## get_issues and get_pull_requests -/

/-- The loop of `get_issues` (`app.py` lines 200-211): one block per issue,
skipping every item that contains a `pull_request` key. -/
def issueBlocks : List PyVal → Py (List String)
  | [] => Except.ok []
  | issue :: rest => do
    let isPR ← pyInStr "pull_request" issue
    if isPR then issueBlocks rest
    else do
      let number ← getItem issue "number"
      let title ← getItem issue "title"
      let state ← getItem issue "state"
      let created_at ← getItem issue "created_at"
      let html_url ← getItem issue "html_url"
      let block := "#" ++ pyStr number ++ " - " ++ pyStr title ++ "\n" ++
        "State: " ++ pyStr state ++ "\n" ++
        "Created: " ++ pyStr created_at ++ "\n" ++
        "URL: " ++ pyStr html_url ++ "\n"
      let restB ← issueBlocks rest
      pure (block :: restB)

/-- The 200-status body of `get_issues` (`app.py` lines 196-213). -/
def issuesBody (state : String) (issues : PyVal) : Py String :=
  if ¬ pyTruthy issues then Except.ok s!"No {state} issues found."
  else do
    let xs ← asIterList issues
    let result ← issueBlocks xs
    pure (if result.isEmpty then s!"No {state} issues found (excluding PRs)."
          else pyJoin "\n" result)

/-- `get_issues` (`app.py` lines 179-213). -/
def get_issues (client : GetRequest → HttpResponse) (github_token : Option String)
    (github_url : String) (state : String) : Py String × List GetRequest :=
  match searchGithub github_url with
  | none => (Except.ok "Invalid GitHub URL format", [])
  | some (owner, repo) =>
    let req := issuesRequest owner repo state github_token
    let response := client req
    if response.status_code ≠ 200 then
      (Except.ok ("Failed to get issues: " ++ response.text), [req])
    else
      (issuesBody state response.json, [req])

/-- The loop of `get_pull_requests` (`app.py` lines 236-243): one block per
pull request, nothing skipped. -/
def prBlocks : List PyVal → Py (List String)
  | [] => Except.ok []
  | pr :: rest => do
    let number ← getItem pr "number"
    let title ← getItem pr "title"
    let state ← getItem pr "state"
    let created_at ← getItem pr "created_at"
    let html_url ← getItem pr "html_url"
    let block := "#" ++ pyStr number ++ " - " ++ pyStr title ++ "\n" ++
      "State: " ++ pyStr state ++ "\n" ++
      "Created: " ++ pyStr created_at ++ "\n" ++
      "URL: " ++ pyStr html_url ++ "\n"
    let restB ← prBlocks rest
    pure (block :: restB)

/-- The 200-status body of `get_pull_requests` (`app.py` lines 232-245). -/
def pullsBody (state : String) (prs : PyVal) : Py String :=
  if ¬ pyTruthy prs then Except.ok s!"No {state} pull requests found."
  else do
    let xs ← asIterList prs
    let result ← prBlocks xs
    pure (pyJoin "\n" result)

/-- `get_pull_requests` (`app.py` lines 215-245). -/
def get_pull_requests (client : GetRequest → HttpResponse) (github_token : Option String)
    (github_url : String) (state : String) : Py String × List GetRequest :=
  match searchGithub github_url with
  | none => (Except.ok "Invalid GitHub URL format", [])
  | some (owner, repo) =>
    let req := pullsRequest owner repo state github_token
    let response := client req
    if response.status_code ≠ 200 then
      (Except.ok ("Failed to get pull requests: " ++ response.text), [req])
    else
      (pullsBody state response.json, [req])

/-! ## The /api/chat endpoint

`ChatRequest` declares `message: str` and `groq_token: str` as required
pydantic fields and `github_token` / `history` as optional ones, so FastAPI
rejects a request body missing `message` or `groq_token` with a 422
validation error before the handler runs.  Inside the handler
(`app.py` lines 274-287), `if not request.groq_token` raises a 400 for an
empty token string, and the history is converted to agent messages. -/

/-- A message part of the pydantic-ai message model. -/
inductive MsgPart where
  | userPrompt (content : String)
  | text (content : String)
  | toolCall (name : String) (args : String)
  | toolReturn (content : String)
deriving DecidableEq

/-- `part.part_kind`. -/
def MsgPart.partKind : MsgPart → String
  | .userPrompt _ => "user-prompt"
  | .text _ => "text"
  | .toolCall _ _ => "tool-call"
  | .toolReturn _ => "tool-return"

/-- `ModelRequest(parts=...)` / `ModelResponse(parts=...)`. -/
inductive Msg where
  | request (parts : List MsgPart)
  | response (parts : List MsgPart)
deriving DecidableEq

/-- `msg.parts`. -/
def Msg.parts : Msg → List MsgPart
  | .request ps => ps
  | .response ps => ps

/-- Lookup in a validated `Dict[str, str]`, raising KeyError when absent. -/
def dlookupE (m : List (String × String)) (k : String) : Py String :=
  match (m.find? (fun kv => kv.1 == k)).map (fun kv => kv.2) with
  | some v => Except.ok v
  | none => Except.error ("KeyError: " ++ k)

/-- The history-conversion loop of the chat handler (`app.py` lines
282-287): `user` entries become `ModelRequest([UserPromptPart(content)])`,
`assistant` entries become `ModelResponse([TextPart(content)])`, entries
with any other role are skipped. -/
def convertHistory : List (List (String × String)) → Py (List Msg)
  | [] => Except.ok []
  | m :: rest => do
    let role ← dlookupE m "role"
    if role = "user" then do
      let c ← dlookupE m "content"
      let ms ← convertHistory rest
      pure (Msg.request [MsgPart.userPrompt c] :: ms)
    else if role = "assistant" then do
      let c ← dlookupE m "content"
      let ms ← convertHistory rest
      pure (Msg.response [MsgPart.text c] :: ms)
    else convertHistory rest

/-- The per-entry conversion that `convertHistory` applies in order (for
stating order preservation via `List.filterMap`). -/
def convOne (m : List (String × String)) : Option Msg :=
  match (m.find? (fun kv => kv.1 == "role")).map (fun kv => kv.2) with
  | some "user" =>
    ((m.find? (fun kv => kv.1 == "content")).map (fun kv => kv.2)).map
      (fun c => Msg.request [MsgPart.userPrompt c])
  | some "assistant" =>
    ((m.find? (fun kv => kv.1 == "content")).map (fun kv => kv.2)).map
      (fun c => Msg.response [MsgPart.text c])
  | _ => none

/-- Outcome of a POST to `/api/chat`, up to the point where the agent is
invoked: an HTTP status produced by validation or by the handler itself,
or the agent run with the converted inputs. -/
inductive ChatResult where
  | httpStatus (code : Nat) (detail : String)
  | agentRun (groq_token : String) (github_token : Option String) (message : String)
      (message_history : List Msg)
deriving DecidableEq

/-- The `/api/chat` pipeline (`app.py` lines 18-22 and 273-301): FastAPI
validation of the required `message` and `groq_token` fields (422 on a
missing field), the handler's empty-token check (400), then history
conversion (an exception here propagates out of the handler, a 500) and
the agent invocation. -/
def chatEndpoint (message : Option String) (groq_token : Option String)
    (github_token : Option String) (history : List (List (String × String))) : ChatResult :=
  match message, groq_token with
  | some m, some g =>
    if g = "" then ChatResult.httpStatus 400 "Groq API token is required"
    else
      match convertHistory history with
      | .error e => ChatResult.httpStatus 500 e
      | .ok msgs => ChatResult.agentRun g github_token m msgs
  | _, _ => ChatResult.httpStatus 422 "Field required"

/-- The HTTP status of a chat outcome, when one was produced before the
agent ran. -/
def resultStatus : ChatResult → Option Nat
  | .httpStatus code _ => some code
  | .agentRun _ _ _ _ => none

/-! ## The CLI chat loop -/

/-- ASCII whitespace stripped by Python `str.strip()`. -/
def isPySpace (c : Char) : Bool :=
  c = ' ' || c = '\t' || c = '\n' || c = '\r' || c = Char.ofNat 11 || c = Char.ofNat 12

/-- Python `s.strip()` (over the ASCII whitespace the CLI receives). -/
def pyStrip (s : String) : String :=
  String.mk (((s.data.dropWhile isPySpace).reverse.dropWhile isPySpace).reverse)

/-- Python `s.lower()` (over the ASCII range the quit sentinel uses). -/
def pyLower (s : String) : String :=
  String.mk (s.data.map Char.toLower)

/-- The result of `github_agent.run`: the final text and the new
messages of the run. -/
structure AgentResult where
  data : String
  newMessages : List Msg

/-- The filter applied to `result.new_messages()` before extending
`self.messages` (`cli.py` lines 255-258): drop every message having a part of
kind `user-prompt` or `text`. -/
def cliFiltered (ms : List Msg) : List Msg :=
  ms.filter (fun m =>
    ¬ (m.parts.any (fun p => p.partKind == "user-prompt" || p.partKind == "text")))

/-- The `CLI.chat` loop (`cli.py` lines 232-267) over a list of input
lines: each line is stripped; a line whose lowercase form is `quit` breaks
the loop; otherwise the agent runs on the line and the current history,
and the history is extended with the user message, the filtered
intermediate messages, and the final response.  Running out of input ends
the loop (`input()` raising EOFError).  Returns the final history and the
list of `(user_input, message_history)` arguments passed to the agent, in
order. -/
def cliChat (agent : String → List Msg → AgentResult) :
    List String → List Msg → List Msg × List (String × List Msg)
  | [], messages => (messages, [])
  | line :: rest, messages =>
    let user_input := pyStrip line
    if pyLower user_input = "quit" then (messages, [])
    else
      let result := agent user_input messages
      let newMessages := messages ++ [Msg.request [MsgPart.userPrompt user_input]] ++
        cliFiltered result.newMessages ++ [Msg.response [MsgPart.text result.data]]
      let cont := cliChat agent rest newMessages
      (cont.1, (user_input, messages) :: cont.2)

/-! ## Auxiliary predicates and line splitting

These definitions restate in predicate form what the claims quantify over
(well-formed response items) and give an observer for "the lines of" a
joined string. -/

/-- Splitting a character list at newline characters; the inverse of
joining newline-free lines with a newline separator. -/
def splitLinesCL : List Char → List (List Char)
  | [] => [[]]
  | c :: cs =>
    if c = '\n' then [] :: splitLinesCL cs
    else
      match splitLinesCL cs with
      | l :: ls => (c :: l) :: ls
      | [] => [[c]]

/-- A tree item the structure loop keeps: its path is a string not
containing an excluded directory substring. -/
def keepItem (item : PyVal) : Bool :=
  match field? item "path" with
  | some (.str p) => !excludedPath p
  | _ => false

/-- A tree item on which the structure loop cannot raise: a string path
(newline-free, so that one item yields one line) and a present type. -/
def wfTreeItem (item : PyVal) : Bool :=
  match field? item "path" with
  | some (.str p) => !p.data.contains '\n' && (field? item "type").isSome
  | _ => false

/-- Whether a tree item's type field equals `"tree"`. -/
def typeIsTree (item : PyVal) : Bool :=
  match field? item "type" with
  | some v => pyEqStr v "tree"
  | none => false

/-- The path of a tree item (total; meaningful under `wfTreeItem`). -/
def pathOf (item : PyVal) : String :=
  match field? item "path" with
  | some (.str p) => p
  | _ => ""

/-- The line printed for a kept tree item. -/
def itemLine (item : PyVal) : String :=
  (if typeIsTree item then "📁 " else "📄 ") ++ pathOf item

/-- An issue item on which the issues loop cannot raise: a dict that either
carries a `pull_request` key (and is skipped) or has the five formatted
fields. -/
def wfIssue (i : PyVal) : Bool :=
  match i with
  | .dict _ =>
    (field? i "pull_request").isSome ||
      ((field? i "number").isSome && (field? i "title").isSome && (field? i "state").isSome &&
        (field? i "created_at").isSome && (field? i "html_url").isSome)
  | _ => false

/-- A pull-request item on which the pulls loop cannot raise: a dict with
the five formatted fields. -/
def wfPR (i : PyVal) : Bool :=
  match i with
  | .dict _ =>
    (field? i "number").isSome && (field? i "title").isSome && (field? i "state").isSome &&
      (field? i "created_at").isSome && (field? i "html_url").isSome
  | _ => false

/-- A `topics` field on which the topics line cannot raise: absent, or a
list of strings. -/
def topicsOK (data : PyVal) : Bool :=
  match field? data "topics" with
  | none => true
  | some (.list xs) => xs.all (fun x => match x with | .str _ => true | _ => false)
  | some _ => false

/-- A `license` field on which the license lines cannot raise: absent,
falsy, or a dict. -/
def licenseOK (data : PyVal) : Bool :=
  match field? data "license" with
  | none => true
  | some v => if pyTruthy v then (match v with | .dict _ => true | _ => false) else true

/-- Whether the JSON `type` field is present and equal to `"file"`. -/
def typeIsFile (data : PyVal) : Bool :=
  match field? data "type" with
  | some (.str "file") => true
  | _ => false

/-- A representative `/repos/{owner}/{repo}` 200 JSON body, used by
witnesses. -/
def sampleRepoInfo : PyVal :=
  PyVal.dict [("size", PyVal.int 2048), ("owner", PyVal.dict [("login", PyVal.str "o")]),
    ("forks_count", PyVal.int 1), ("open_issues_count", PyVal.int 0),
    ("default_branch", PyVal.str "main"), ("visibility", PyVal.str "public"),
    ("full_name", PyVal.str "o/r"), ("description", PyVal.null),
    ("stargazers_count", PyVal.int 5), ("language", PyVal.str "Python"),
    ("created_at", PyVal.str "2020-01-01"), ("updated_at", PyVal.str "2021-01-01")]

/-- A representative git-tree item list, used by witnesses. -/
def sampleTree : List PyVal :=
  [PyVal.dict [("path", PyVal.str "README.md"), ("type", PyVal.str "blob")]]

/-- A representative issue item, used by witnesses. -/
def sampleIssue : PyVal :=
  PyVal.dict [("number", PyVal.int 1), ("title", PyVal.str "bug"),
    ("state", PyVal.str "open"), ("created_at", PyVal.str "2020-01-01"),
    ("html_url", PyVal.str "https://github.com/o/r/issues/1")]

/-- A representative pull-request item, used by witnesses. -/
def samplePull : PyVal :=
  PyVal.dict [("number", PyVal.int 2), ("title", PyVal.str "feat"),
    ("state", PyVal.str "open"), ("created_at", PyVal.str "2020-01-01"),
    ("html_url", PyVal.str "https://github.com/o/r/pull/2")]

/-! ## Helper lemmas -/

theorem getItem_of_field? {v : PyVal} {k : String} {x : PyVal} (h : field? v k = some x) :
    getItem v k = Except.ok x := by
  cases v <;> simp [field?] at h
  simp [getItem, h]

theorem field?_dict {v : PyVal} {k : String} {x : PyVal} (h : field? v k = some x) :
    ∃ fs, v = PyVal.dict fs := by
  cases v <;> simp [field?] at h
  exact ⟨_, rfl⟩

theorem data_append (s t : String) : (s ++ t).data = s.data ++ t.data := by
  cases s; cases t; rfl

theorem append_ne_empty_left {s : String} (t : String) (h : s.data ≠ []) : s ++ t ≠ "" := by
  intro he
  have hd := congrArg String.data he
  rw [data_append] at hd
  exact h (List.append_eq_nil.mp hd).1

theorem splitLinesCL_no_newline {l : List Char} (h : '\n' ∉ l) : splitLinesCL l = [l] := by
  induction l with
  | nil => rfl
  | cons c cs ih =>
    have hc : c ≠ '\n' := by
      intro hc; exact h (hc ▸ List.mem_cons_self c cs)
    have hcs : '\n' ∉ cs := fun hm => h (List.mem_cons_of_mem c hm)
    simp [splitLinesCL, hc, ih hcs]

theorem splitLinesCL_append {l : List Char} (r : List Char) (h : '\n' ∉ l) :
    splitLinesCL (l ++ '\n' :: r) = l :: splitLinesCL r := by
  induction l with
  | nil => simp [splitLinesCL]
  | cons c cs ih =>
    have hc : c ≠ '\n' := by
      intro hc; exact h (hc ▸ List.mem_cons_self c cs)
    have hcs : '\n' ∉ cs := fun hm => h (List.mem_cons_of_mem c hm)
    simp [splitLinesCL, hc, ih hcs]

theorem splitLines_pyJoin {xs : List String} (hne : xs ≠ [])
    (h : ∀ x ∈ xs, '\n' ∉ x.data) :
    splitLinesCL (pyJoin "\n" xs).data = xs.map String.data := by
  induction xs with
  | nil => exact absurd rfl hne
  | cons x rest ih =>
    cases rest with
    | nil =>
      simp [pyJoin]
      exact splitLinesCL_no_newline (h x (List.mem_cons_self x []))
    | cons y t =>
      have hx : '\n' ∉ x.data := h x (List.mem_cons_self x (y :: t))
      have hrest : ∀ z ∈ y :: t, '\n' ∉ z.data := fun z hz => h z (List.mem_cons_of_mem x hz)
      have hjoin : pyJoin "\n" (x :: y :: t) = x ++ "\n" ++ pyJoin "\n" (y :: t) := rfl
      rw [hjoin, data_append, data_append]
      have hnl : ("\n" : String).data = ['\n'] := rfl
      rw [hnl, List.append_assoc, List.singleton_append]
      rw [splitLinesCL_append _ hx]
      simp [ih (by simp) hrest]

theorem pyJoin_data_ne_nil {sep : String} {xs : List String} (hne : xs ≠ [])
    (h : ∀ x ∈ xs, x.data ≠ []) : (pyJoin sep xs).data ≠ [] := by
  cases xs with
  | nil => exact absurd rfl hne
  | cons x rest =>
    cases rest with
    | nil => exact h x (List.mem_cons_self x [])
    | cons y t =>
      have hx := h x (List.mem_cons_self x (y :: t))
      have : pyJoin sep (x :: y :: t) = x ++ sep ++ pyJoin sep (y :: t) := rfl
      rw [this, data_append, data_append]
      intro he
      exact hx (List.append_eq_nil.mp (List.append_eq_nil.mp he).1).1

theorem okBind {α β : Type} (a : α) (f : α → Py β) : (Except.ok a >>= f : Py β) = f a := rfl

theorem errBind {α β : Type} (e : String) (f : α → Py β) :
    (Except.error e >>= f : Py β) = Except.error e := rfl

theorem pureIsOk {α : Type} (a : α) : (pure a : Py α) = Except.ok a := rfl

theorem structureLines_wf {tree : List PyVal} (h : ∀ i ∈ tree, wfTreeItem i = true) :
    structureLines tree = Except.ok ((tree.filter keepItem).map itemLine) := by
  induction tree with
  | nil => rfl
  | cons item rest ih =>
    have hi := h item (List.mem_cons_self item rest)
    have hrest : ∀ i ∈ rest, wfTreeItem i = true := fun i hm => h i (List.mem_cons_of_mem item hm)
    unfold wfTreeItem at hi
    cases hp : field? item "path" with
    | none => rw [hp] at hi; simp at hi
    | some pv =>
      rw [hp] at hi
      cases pv with
      | str p =>
        simp only [Bool.and_eq_true, Option.isSome_iff_exists] at hi
        obtain ⟨hnl, tv, htv⟩ := hi
        have hgp : getItem item "path" = Except.ok (PyVal.str p) := getItem_of_field? hp
        have hgt : getItem item "type" = Except.ok tv := getItem_of_field? htv
        have hkeep : keepItem item = !excludedPath p := by simp [keepItem, hp]
        have hline : itemLine item = (if pyEqStr tv "tree" then "📁 " else "📄 ") ++ p := by
          simp [itemLine, typeIsTree, htv, pathOf, hp]
        by_cases hex : excludedPath p = true
        · simp [structureLines, hgp, asStr, okBind, hex, ih hrest, hkeep]
        · simp only [Bool.not_eq_true] at hex
          simp [structureLines, hgp, asStr, okBind, hex, hgt, ih hrest, hkeep, hline]
      | null => simp at hi
      | bool b => simp at hi
      | int n => simp at hi
      | list xs => simp at hi
      | dict fs => simp at hi

theorem issueBlocks_wf {xs : List PyVal} (h : ∀ i ∈ xs, wfIssue i = true) :
    ∃ bs, issueBlocks xs = Except.ok bs ∧ ∀ b ∈ bs, b.data ≠ [] := by
  induction xs with
  | nil => exact ⟨[], rfl, by simp⟩
  | cons i rest ih =>
    have hi := h i (List.mem_cons_self i rest)
    have hrest : ∀ j ∈ rest, wfIssue j = true := fun j hm => h j (List.mem_cons_of_mem i hm)
    obtain ⟨bs, hbs, hne⟩ := ih hrest
    unfold wfIssue at hi
    cases i with
    | dict fs =>
      by_cases hpr : (lookupKey fs "pull_request").isSome
      · refine ⟨bs, ?_, hne⟩
        simp [issueBlocks, pyInStr, hpr, okBind, hbs]
      · simp only [field?, hpr, Bool.false_or] at hi
        simp only [Bool.and_eq_true, Option.isSome_iff_exists] at hi
        obtain ⟨⟨⟨⟨⟨n, hn⟩, t, ht⟩, st, hst⟩, cr, hcr⟩, u, hu⟩ := hi
        refine ⟨("#" ++ pyStr n ++ " - " ++ pyStr t ++ "\n" ++ "State: " ++ pyStr st ++ "\n" ++
          "Created: " ++ pyStr cr ++ "\n" ++ "URL: " ++ pyStr u ++ "\n") :: bs, ?_, ?_⟩
        · simp [issueBlocks, pyInStr, hpr, okBind, getItem, hn, ht, hst, hcr, hu, hbs]
        · intro b hb
          rcases List.mem_cons.mp hb with hb | hb
          · subst hb
            rw [data_append]
            simp
          · exact hne b hb
    | null => simp at hi
    | bool b => simp at hi
    | int n => simp at hi
    | str s => simp at hi
    | list l => simp at hi

theorem issueBlocks_cong {l1 l2 : List PyVal} (j : PyVal) (h : issueBlocks l1 = issueBlocks l2) :
    issueBlocks (j :: l1) = issueBlocks (j :: l2) := by
  simp only [issueBlocks]
  simp only [h]

theorem issueBlocks_skip {i : PyVal} (pre post : List PyVal)
    (h : pyInStr "pull_request" i = Except.ok true) :
    issueBlocks (pre ++ i :: post) = issueBlocks (pre ++ post) := by
  induction pre with
  | nil =>
    simp only [List.nil_append]
    simp [issueBlocks, h, okBind]
  | cons j pre ih => exact issueBlocks_cong j ih

theorem prBlocks_wf {xs : List PyVal} (h : ∀ i ∈ xs, wfPR i = true) :
    ∃ bs, prBlocks xs = Except.ok bs ∧ (∀ b ∈ bs, b.data ≠ []) ∧ bs.length = xs.length := by
  induction xs with
  | nil => exact ⟨[], rfl, by simp, rfl⟩
  | cons i rest ih =>
    have hi := h i (List.mem_cons_self i rest)
    have hrest : ∀ j ∈ rest, wfPR j = true := fun j hm => h j (List.mem_cons_of_mem i hm)
    obtain ⟨bs, hbs, hne, hlen⟩ := ih hrest
    unfold wfPR at hi
    cases i with
    | dict fs =>
      simp only [field?, Bool.and_eq_true, Option.isSome_iff_exists] at hi
      obtain ⟨⟨⟨⟨⟨n, hn⟩, t, ht⟩, st, hst⟩, cr, hcr⟩, u, hu⟩ := hi
      refine ⟨("#" ++ pyStr n ++ " - " ++ pyStr t ++ "\n" ++ "State: " ++ pyStr st ++ "\n" ++
        "Created: " ++ pyStr cr ++ "\n" ++ "URL: " ++ pyStr u ++ "\n") :: bs, ?_, ?_, by simp [hlen]⟩
      · simp [prBlocks, okBind, getItem, hn, ht, hst, hcr, hu, hbs]
      · intro b hb
        rcases List.mem_cons.mp hb with hb | hb
        · subst hb
          rw [data_append]
          simp
        · exact hne b hb
    | null => simp at hi
    | bool b => simp at hi
    | int n => simp at hi
    | str s => simp at hi
    | list l => simp at hi

theorem strList_ok {xs : List PyVal} (h : ∀ x ∈ xs, ∃ s, x = PyVal.str s) :
    ∃ ss, strList xs = Except.ok ss := by
  induction xs with
  | nil => exact ⟨[], rfl⟩
  | cons x rest ih =>
    obtain ⟨s, hs⟩ := h x (List.mem_cons_self x rest)
    obtain ⟨ss, hss⟩ := ih (fun y hy => h y (List.mem_cons_of_mem x hy))
    subst hs
    exact ⟨s :: ss, by simp [strList, hss, okBind]⟩

theorem topicsComp_ok {data : PyVal} {fs : List (String × PyVal)} (hd : data = PyVal.dict fs)
    (h : topicsOK data = true) : ∃ t, topicsComp data = Except.ok t := by
  subst hd
  unfold topicsOK at h
  cases htp : lookupKey fs "topics" with
  | none =>
    refine ⟨"No topics", ?_⟩
    simp [topicsComp, pyInStr, htp, okBind, pureIsOk]
  | some v =>
    simp only [field?, htp] at h
    cases v with
    | list xs =>
      have hall : ∀ x ∈ xs, ∃ s, x = PyVal.str s := by
        intro x hx
        have := (List.all_eq_true.mp h) x hx
        cases x <;> simp_all
      obtain ⟨ss, hss⟩ := strList_ok hall
      refine ⟨pyJoin ", " ss, ?_⟩
      simp [topicsComp, pyInStr, htp, okBind, dictGet, hss, pureIsOk]
    | null => simp at h
    | bool b => simp at h
    | int n => simp at h
    | str s => simp at h
    | dict f2 => simp at h

theorem licenseComp_ok {data : PyVal} {fs : List (String × PyVal)} (hd : data = PyVal.dict fs)
    (h : licenseOK data = true) : ∃ v, licenseComp data = Except.ok v := by
  subst hd
  unfold licenseOK at h
  cases hl : lookupKey fs "license" with
  | none =>
    refine ⟨PyVal.str "No license available", ?_⟩
    simp [licenseComp, dictGet, hl, okBind, pyTruthy, pureIsOk]
  | some v =>
    simp only [field?, hl] at h
    by_cases htr : pyTruthy v = true
    · rw [if_pos htr] at h
      cases v with
      | dict f2 =>
        refine ⟨(lookupKey f2 "name").getD (PyVal.str "No license available"), ?_⟩
        simp [licenseComp, dictGet, hl, okBind, htr]
      | null => simp at h
      | bool b => simp at h
      | int n => simp at h
      | str s => simp at h
      | list l => simp at h
    · simp only [Bool.not_eq_true] at htr
      refine ⟨PyVal.str "No license available", ?_⟩
      simp [licenseComp, dictGet, hl, okBind, htr, pureIsOk]

theorem strAppend_assoc (a b c : String) : (a ++ b) ++ c = a ++ (b ++ c) := by
  cases a with | mk la => cases b with | mk lb => cases c with | mk lc =>
  show String.mk ((la ++ lb) ++ lc) = String.mk (la ++ (lb ++ lc))
  rw [List.append_assoc]

theorem repoInfoBody_ok {data : PyVal} (owner repo : String)
    (hsz : ∃ n, field? data "size" = some (PyVal.int n))
    (how : ∃ ow lg, field? data "owner" = some ow ∧ field? ow "login" = some lg)
    (hfc : (field? data "forks_count").isSome)
    (hoi : (field? data "open_issues_count").isSome)
    (hdb : (field? data "default_branch").isSome)
    (hvis : (field? data "visibility").isSome)
    (htp : topicsOK data = true)
    (hlic : licenseOK data = true)
    (hfn : (field? data "full_name").isSome)
    (hde : (field? data "description").isSome)
    (hst : (field? data "stargazers_count").isSome)
    (hlang : (field? data "language").isSome)
    (hca : (field? data "created_at").isSome)
    (hua : (field? data "updated_at").isSome) :
    ∃ s, repoInfoBody owner repo data = Except.ok s ∧ s ≠ "" := by
  obtain ⟨n, hsz⟩ := hsz
  obtain ⟨ow, lg, how, hlg⟩ := how
  obtain ⟨fs, rfl⟩ := field?_dict hsz
  rw [Option.isSome_iff_exists] at hfc hoi hdb hvis hfn hde hst hlang hca hua
  obtain ⟨fc, hfc⟩ := hfc
  obtain ⟨oi, hoi⟩ := hoi
  obtain ⟨db, hdb⟩ := hdb
  obtain ⟨vis, hvis⟩ := hvis
  obtain ⟨fn, hfn⟩ := hfn
  obtain ⟨de, hde⟩ := hde
  obtain ⟨st, hst⟩ := hst
  obtain ⟨lang, hlang⟩ := hlang
  obtain ⟨ca, hca⟩ := hca
  obtain ⟨ua, hua⟩ := hua
  obtain ⟨t, htc⟩ := topicsComp_ok rfl htp
  obtain ⟨lv, hlc⟩ := licenseComp_ok rfl hlic
  refine ⟨"Repository: " ++ (pyStr fn ++ ("\nOwner: " ++ (pyStr lg ++ ("\nDescription: " ++
    (pyStr de ++ ("\nSize: " ++ (fmtDiv1024 n ++ ("MB\nStars: " ++ (pyStr st ++ ("\nForks: " ++
    (pyStr fc ++ ("\nOpen Issues: " ++ (pyStr oi ++ ("\nPull Requests: " ++
    (s!"https://github.com/{owner}/{repo}/pulls" ++ ("\nLanguage: " ++ (pyStr lang ++
    ("\nCreated: " ++ (pyStr ca ++ ("\nLast Updated: " ++ (pyStr ua ++ ("\nDefault Branch: " ++
    (pyStr db ++ ("\nVisibility: " ++ (pyStr vis ++ ("\nTopics: " ++ (t ++ ("\nLicense: " ++
    (pyStr lv))))))))))))))))))))))))))))),
    ?_, ?_⟩
  · simp [repoInfoBody, getItem_of_field? hsz, getItem_of_field? how, getItem_of_field? hlg,
      getItem_of_field? hfc, getItem_of_field? hoi, getItem_of_field? hdb,
      getItem_of_field? hvis, htc, hlc, getItem_of_field? hfn, getItem_of_field? hde,
      getItem_of_field? hst, getItem_of_field? hlang, getItem_of_field? hca,
      getItem_of_field? hua, asNum, okBind, pureIsOk, strAppend_assoc]
  · apply append_ne_empty_left
    decide

theorem ne_empty_of_data {s : String} (h : s.data ≠ []) : s ≠ "" := by
  intro he
  rw [he] at h
  exact h rfl

theorem append3_ne_empty (a b c : String) (ha : a.data ≠ []) : a ++ b ++ c ≠ "" := by
  apply append_ne_empty_left
  rw [data_append]
  intro h
  exact ha (List.append_eq_nil.mp h).1

/-! ## The claims -/

/-- C1: for every `github_url` that the fixed pattern
`github.com[:/]owner/repo(.git)?` does not match at the end of the string,
each of the five query functions returns an error string (an ordinary
return value, not an exception) and issues no HTTP request. -/
theorem claim1_invalid_url (client : GetRequest → HttpResponse) (tok : Option String)
    (url file_path state : String) (h : searchGithub url = none) :
    get_repo_info client tok url = (Except.ok "Invalid GitHub URL format.", []) ∧
    get_repo_structure client tok url = (Except.ok "Invalid GitHub URL format", []) ∧
    get_file_content client tok url file_path = (Except.ok "Invalid GitHub URL format", []) ∧
    get_issues client tok url state = (Except.ok "Invalid GitHub URL format", []) ∧
    get_pull_requests client tok url state = (Except.ok "Invalid GitHub URL format", []) := by
  unfold get_repo_info get_repo_structure get_file_content get_issues get_pull_requests
  simp [h]

/-- Witness for C1 at the malformed URL `"not a url"`. -/
theorem claim1_invalid_url_witness :
    get_repo_info (fun _ => ⟨404, "x", PyVal.null⟩) none "not a url" =
      (Except.ok "Invalid GitHub URL format.", []) ∧
    get_repo_structure (fun _ => ⟨404, "x", PyVal.null⟩) none "not a url" =
      (Except.ok "Invalid GitHub URL format", []) ∧
    get_file_content (fun _ => ⟨404, "x", PyVal.null⟩) none "not a url" "README.md" =
      (Except.ok "Invalid GitHub URL format", []) ∧
    get_issues (fun _ => ⟨404, "x", PyVal.null⟩) none "not a url" "open" =
      (Except.ok "Invalid GitHub URL format", []) ∧
    get_pull_requests (fun _ => ⟨404, "x", PyVal.null⟩) none "not a url" "open" =
      (Except.ok "Invalid GitHub URL format", []) :=
  claim1_invalid_url (fun _ => ⟨404, "x", PyVal.null⟩) none "not a url" "README.md" "open"
    (by decide)

/-- C2: for a well-formed URL, when every GitHub API response has a status
other than 200, each query function returns (not raises) a string
beginning with `Failed to get ...` that embeds the response body
(`get_repo_structure` embeds the body of its second, master-branch
request). -/
theorem claim2_non200 (client : GetRequest → HttpResponse) (tok : Option String)
    (url owner repo file_path state : String)
    (h : searchGithub url = some (owner, repo))
    (hcl : ∀ r, (client r).status_code ≠ 200) :
    (get_repo_info client tok url).1 =
      Except.ok ("Failed to get repository info: " ++ (client (repoInfoRequest owner repo tok)).text) ∧
    (get_repo_structure client tok url).1 =
      Except.ok ("Failed to get repository structure: " ++
        (client (repoTreeRequest owner repo "master" tok)).text) ∧
    (get_file_content client tok url file_path).1 =
      Except.ok ("Failed to get file content: " ++
        (client (fileContentRequest owner repo file_path tok)).text) ∧
    (get_issues client tok url state).1 =
      Except.ok ("Failed to get issues: " ++ (client (issuesRequest owner repo state tok)).text) ∧
    (get_pull_requests client tok url state).1 =
      Except.ok ("Failed to get pull requests: " ++
        (client (pullsRequest owner repo state tok)).text) := by
  unfold get_repo_info get_repo_structure get_file_content get_issues get_pull_requests
  simp [h, hcl]

/-- Witness for C2: a client that always answers 404 with body `"oops"`. -/
theorem claim2_non200_witness :
    (get_repo_info (fun _ => ⟨404, "oops", PyVal.null⟩) none "https://github.com/o/r").1 =
      Except.ok "Failed to get repository info: oops" ∧
    (get_repo_structure (fun _ => ⟨404, "oops", PyVal.null⟩) none "https://github.com/o/r").1 =
      Except.ok "Failed to get repository structure: oops" ∧
    (get_file_content (fun _ => ⟨404, "oops", PyVal.null⟩) none "https://github.com/o/r" "a.py").1 =
      Except.ok "Failed to get file content: oops" ∧
    (get_issues (fun _ => ⟨404, "oops", PyVal.null⟩) none "https://github.com/o/r" "open").1 =
      Except.ok "Failed to get issues: oops" ∧
    (get_pull_requests (fun _ => ⟨404, "oops", PyVal.null⟩) none "https://github.com/o/r" "open").1 =
      Except.ok "Failed to get pull requests: oops" :=
  claim2_non200 (fun _ => ⟨404, "oops", PyVal.null⟩) none "https://github.com/o/r" "o" "r"
    "a.py" "open" (by decide) (by intro r; show (404 : Nat) ≠ 200; decide)

/-- C3 counterexample: a request whose body carries a message but no
`groq_token` field is rejected by FastAPI's validation of the required
`groq_token: str` field with status 422, not 400. -/
theorem claim3_counterexample :
    resultStatus (chatEndpoint (some "hello") none none []) = some 422 ∧
    resultStatus (chatEndpoint (some "hello") none none []) ≠ some 400 := by
  refine ⟨rfl, ?_⟩
  decide

/-- C3 amended: a request missing the `groq_token` field gets HTTP 422
from validation; the handler's 400 (`Groq API token is required`) arises
when the field is present but the token is the empty string. -/
theorem claim3_amended (m gh : Option String) (hist : List (List (String × String))) :
    resultStatus (chatEndpoint m none gh hist) = some 422 ∧
    (∀ msg : String, resultStatus (chatEndpoint (some msg) (some "") gh hist) = some 400) := by
  constructor
  · cases m <;> rfl
  · intro msg; rfl

/-- C5 counterexample: on a well-formed URL whose main-branch tree request
fails, `get_repo_structure` issues two GET requests in one invocation, not
exactly one. -/
theorem claim5_counterexample :
    ((get_repo_structure (fun _ => ⟨404, "not found", PyVal.null⟩) none
      "https://github.com/o/r").2).length = 2 := by
  decide

/-- C5 amended: on a well-formed URL, `get_repo_info`, `get_file_content`,
`get_issues` and `get_pull_requests` each issue exactly one GET request to
their endpoint, and `get_repo_structure` issues one GET (main branch) when
that request returns 200 and two GETs (main, then master) otherwise. -/
theorem claim5_request_counts (client : GetRequest → HttpResponse) (tok : Option String)
    (url owner repo file_path state : String)
    (h : searchGithub url = some (owner, repo)) :
    (get_repo_info client tok url).2 = [repoInfoRequest owner repo tok] ∧
    (get_file_content client tok url file_path).2 = [fileContentRequest owner repo file_path tok] ∧
    (get_issues client tok url state).2 = [issuesRequest owner repo state tok] ∧
    (get_pull_requests client tok url state).2 = [pullsRequest owner repo state tok] ∧
    (get_repo_structure client tok url).2 =
      (if (client (repoTreeRequest owner repo "main" tok)).status_code = 200 then
        [repoTreeRequest owner repo "main" tok]
      else [repoTreeRequest owner repo "main" tok, repoTreeRequest owner repo "master" tok]) := by
  refine ⟨?_, ?_, ?_, ?_, ?_⟩
  · unfold get_repo_info
    rw [h]
    by_cases hc : (client (repoInfoRequest owner repo tok)).status_code = 200 <;> simp [hc]
  · unfold get_file_content
    rw [h]
    by_cases hc : (client (fileContentRequest owner repo file_path tok)).status_code = 200 <;>
      simp [hc]
  · unfold get_issues
    rw [h]
    by_cases hc : (client (issuesRequest owner repo state tok)).status_code = 200 <;> simp [hc]
  · unfold get_pull_requests
    rw [h]
    by_cases hc : (client (pullsRequest owner repo state tok)).status_code = 200 <;> simp [hc]
  · unfold get_repo_structure
    rw [h]
    by_cases hm : (client (repoTreeRequest owner repo "main" tok)).status_code = 200
    · simp [hm]
    · by_cases hm2 : (client (repoTreeRequest owner repo "master" tok)).status_code = 200 <;>
        simp [hm, hm2]

/-- Witness for C5's amended theorem at a well-formed URL with an
always-200 client. -/
theorem claim5_request_counts_witness :
    (get_repo_info (fun _ => ⟨200, "", PyVal.null⟩) none "https://github.com/o/r").2 =
      [repoInfoRequest "o" "r" none] ∧
    (get_file_content (fun _ => ⟨200, "", PyVal.null⟩) none "https://github.com/o/r" "a.py").2 =
      [fileContentRequest "o" "r" "a.py" none] ∧
    (get_issues (fun _ => ⟨200, "", PyVal.null⟩) none "https://github.com/o/r" "open").2 =
      [issuesRequest "o" "r" "open" none] ∧
    (get_pull_requests (fun _ => ⟨200, "", PyVal.null⟩) none "https://github.com/o/r" "open").2 =
      [pullsRequest "o" "r" "open" none] ∧
    (get_repo_structure (fun _ => ⟨200, "", PyVal.null⟩) none "https://github.com/o/r").2 =
      (if ((fun (_ : GetRequest) => (⟨200, "", PyVal.null⟩ : HttpResponse))
            (repoTreeRequest "o" "r" "main" none)).status_code = 200 then
        [repoTreeRequest "o" "r" "main" none]
      else [repoTreeRequest "o" "r" "main" none, repoTreeRequest "o" "r" "master" none]) :=
  claim5_request_counts (fun _ => ⟨200, "", PyVal.null⟩) none "https://github.com/o/r" "o" "r"
    "a.py" "open" (by decide)

/-- C6: the CLI chat loop stops at the first input line whose stripped,
lowercased form is `quit`: the run on any input list `pre ++ quitLine ::
post` is identical (final history and agent-call log) to the run on `pre`
alone, so the quit line triggers no agent call and nothing after it is
read. -/
theorem claim6_quit (agent : String → List Msg → AgentResult) (pre post : List String)
    (q : String) (msgs : List Msg) (hq : pyLower (pyStrip q) = "quit") :
    cliChat agent (pre ++ q :: post) msgs = cliChat agent pre msgs := by
  induction pre generalizing msgs with
  | nil =>
    simp only [List.nil_append]
    simp [cliChat, hq]
  | cons l rest ih =>
    simp only [List.cons_append, cliChat]
    by_cases hl : pyLower (pyStrip l) = "quit"
    · simp [hl]
    · simp [hl, ih]

/-- Witness for C6: the run on `["hi", " QUIT ", "bye"]` equals the run on
`["hi"]`. -/
theorem claim6_quit_witness :
    cliChat (fun _ _ => ⟨"resp", []⟩) ["hi", " QUIT ", "bye"] [] =
      cliChat (fun _ _ => ⟨"resp", []⟩) ["hi"] [] :=
  claim6_quit (fun _ _ => ⟨"resp", []⟩) ["hi"] ["bye"] " QUIT " [] (by decide)

/-- C10: on a 200 response whose JSON object has no `type` field or a
`type` field different from `"file"`, `get_file_content` returns the fixed
string `The path does not point to a file` — an ordinary return value, so
no base64 decoding is attempted and no exception can arise from the
(unconstrained) `content` field. -/
theorem claim10_not_file (client : GetRequest → HttpResponse) (tok : Option String)
    (url file_path owner repo : String) (fs : List (String × PyVal))
    (h : searchGithub url = some (owner, repo))
    (h200 : (client (fileContentRequest owner repo file_path tok)).status_code = 200)
    (hjson : (client (fileContentRequest owner repo file_path tok)).json = PyVal.dict fs)
    (hty : typeIsFile (PyVal.dict fs) = false) :
    (get_file_content client tok url file_path).1 =
      Except.ok "The path does not point to a file" := by
  unfold get_file_content
  rw [h]
  simp only [h200]
  have hne : pyEqStr ((lookupKey fs "type").getD PyVal.null) "file" = false := by
    unfold typeIsFile at hty
    cases hl : lookupKey fs "type" with
    | none => rfl
    | some v =>
      simp only [field?, hl] at hty
      cases v with
      | str s =>
        by_cases hs : s = "file"
        · subst hs; simp at hty
        · simp [pyEqStr, hs]
      | null => rfl
      | bool b => rfl
      | int n => rfl
      | list l => rfl
      | dict d => rfl
  simp [hjson, fileContentBody, dictGet, okBind, hne, pureIsOk]

/-- Witness for C10: a 200 response whose body has `type = "dir"`. -/
theorem claim10_not_file_witness :
    (get_file_content
      (fun _ => ⟨200, "", PyVal.dict [("type", PyVal.str "dir"), ("content", PyVal.str "!!!")]⟩)
      none "https://github.com/o/r" "src").1 =
      Except.ok "The path does not point to a file" :=
  claim10_not_file
    (fun _ => ⟨200, "", PyVal.dict [("type", PyVal.str "dir"), ("content", PyVal.str "!!!")]⟩)
    none "https://github.com/o/r" "src" "o" "r"
    [("type", PyVal.str "dir"), ("content", PyVal.str "!!!")]
    (by decide) rfl rfl (by decide)

theorem dlookupE_ok {m : List (String × String)} {k v : String} :
    dlookupE m k = Except.ok v ↔
      (m.find? (fun kv => kv.1 == k)).map (fun kv => kv.2) = some v := by
  unfold dlookupE
  cases h : (m.find? (fun kv => kv.1 == k)).map (fun kv => kv.2) <;> simp [h]

theorem convertHistory_filterMap {h : List (List (String × String))} {msgs : List Msg}
    (hc : convertHistory h = Except.ok msgs) : msgs = h.filterMap convOne := by
  induction h generalizing msgs with
  | nil =>
    simp [convertHistory] at hc
    simp [hc.symm]
  | cons m rest ih =>
    cases hr : dlookupE m "role" with
    | error e => simp [convertHistory, hr, errBind] at hc
    | ok role =>
      have hr' := dlookupE_ok.mp hr
      by_cases hu : role = "user"
      · subst hu
        cases hcn : dlookupE m "content" with
        | error e => simp [convertHistory, hr, hcn, okBind, errBind] at hc
        | ok c =>
          cases hrest : convertHistory rest with
          | error e => simp [convertHistory, hr, hcn, hrest, okBind, errBind] at hc
          | ok ms =>
            have hc' := dlookupE_ok.mp hcn
            simp [convertHistory, hr, hcn, hrest, okBind, pureIsOk] at hc
            simp [List.filterMap_cons, convOne, hr', hc', hc.symm, ih hrest]
      · by_cases ha : role = "assistant"
        · subst ha
          cases hcn : dlookupE m "content" with
          | error e => simp [convertHistory, hr, hu, hcn, okBind, errBind] at hc
          | ok c =>
            cases hrest : convertHistory rest with
            | error e => simp [convertHistory, hr, hu, hcn, hrest, okBind, errBind] at hc
            | ok ms =>
              have hc' := dlookupE_ok.mp hcn
              simp [convertHistory, hr, hu, hcn, hrest, okBind, pureIsOk] at hc
              simp [List.filterMap_cons, convOne, hr', hc', hc.symm, ih hrest]
        · have hc2 : convertHistory rest = Except.ok msgs := by
            simpa [convertHistory, hr, hu, ha, okBind] using hc
          have hnone : convOne m = none := by
            simp [convOne, hr', hu, ha]
          simp [List.filterMap_cons, hnone, ih hc2]

theorem cliChat_prefix (agent : String → List Msg → AgentResult) :
    ∀ (lines : List String) (msgs : List Msg), ∃ tl, (cliChat agent lines msgs).1 = msgs ++ tl := by
  intro lines
  induction lines with
  | nil => exact fun msgs => ⟨[], by simp [cliChat]⟩
  | cons l rest ih =>
    intro msgs
    by_cases hq : pyLower (pyStrip l) = "quit"
    · exact ⟨[], by simp [cliChat, hq]⟩
    · obtain ⟨tl, htl⟩ := ih (msgs ++ [Msg.request [MsgPart.userPrompt (pyStrip l)]] ++
        cliFiltered (agent (pyStrip l) msgs).newMessages ++
        [Msg.response [MsgPart.text (agent (pyStrip l) msgs).data]])
      refine ⟨[Msg.request [MsgPart.userPrompt (pyStrip l)]] ++
        cliFiltered (agent (pyStrip l) msgs).newMessages ++
        [Msg.response [MsgPart.text (agent (pyStrip l) msgs).data]] ++ tl, ?_⟩
      simp only [cliChat, hq, if_false]
      rw [htl]
      simp [List.append_assoc]

theorem cliChat_single_turn (agent : String → List Msg → AgentResult) (l : String)
    (msgs : List Msg) (hl : pyLower (pyStrip l) ≠ "quit") :
    (cliChat agent [l] msgs).1 = msgs ++ [Msg.request [MsgPart.userPrompt (pyStrip l)]] ++
      cliFiltered (agent (pyStrip l) msgs).newMessages ++
      [Msg.response [MsgPart.text (agent (pyStrip l) msgs).data]] := by
  simp [cliChat, hl]

/-- C7: conversation history order is preserved.  First, the chat
handler's conversion of `request.history` into agent messages is the
order-preserving `List.filterMap` of the per-entry conversion (user and
assistant entries in their original order, other roles skipped).  Second,
a CLI run never reorders or drops earlier history: the history it produces
extends the initial one.  Third, a single CLI turn appends, in order, the
user message, the filtered intermediate messages, and the final assistant
response. -/
theorem claim7_history_order :
    (∀ (h : List (List (String × String))) (msgs : List Msg),
      convertHistory h = Except.ok msgs → msgs = h.filterMap convOne) ∧
    (∀ (agent : String → List Msg → AgentResult) (lines : List String) (msgs : List Msg),
      ∃ tl, (cliChat agent lines msgs).1 = msgs ++ tl) ∧
    (∀ (agent : String → List Msg → AgentResult) (l : String) (msgs : List Msg),
      pyLower (pyStrip l) ≠ "quit" →
      (cliChat agent [l] msgs).1 = msgs ++ [Msg.request [MsgPart.userPrompt (pyStrip l)]] ++
        cliFiltered (agent (pyStrip l) msgs).newMessages ++
        [Msg.response [MsgPart.text (agent (pyStrip l) msgs).data]]) :=
  ⟨fun _ _ => convertHistory_filterMap, fun agent => cliChat_prefix agent, cliChat_single_turn⟩

/-- Witness for C7: a one-entry history converted by the handler, a
two-line CLI run extending empty history, and one concrete CLI turn. -/
theorem claim7_history_order_witness :
    ([Msg.request [MsgPart.userPrompt "hi"]] =
      List.filterMap convOne [[("role", "user"), ("content", "hi")]]) ∧
    (∃ tl, (cliChat (fun _ _ => ⟨"resp", []⟩) ["a", "b"] []).1 = [] ++ tl) ∧
    ((cliChat (fun _ _ => ⟨"resp", []⟩) ["hello"] []).1 =
      [] ++ [Msg.request [MsgPart.userPrompt (pyStrip "hello")]] ++
      cliFiltered ((fun (_ : String) (_ : List Msg) =>
        (⟨"resp", []⟩ : AgentResult)) (pyStrip "hello") []).newMessages ++
      [Msg.response [MsgPart.text ((fun (_ : String) (_ : List Msg) =>
        (⟨"resp", []⟩ : AgentResult)) (pyStrip "hello") []).data]]) :=
  ⟨claim7_history_order.1 [[("role", "user"), ("content", "hi")]]
      [Msg.request [MsgPart.userPrompt "hi"]] rfl,
    claim7_history_order.2.1 (fun _ _ => ⟨"resp", []⟩) ["a", "b"] [],
    claim7_history_order.2.2 (fun _ _ => ⟨"resp", []⟩) "hello" [] (by decide)⟩

theorem issueBlocks_allPR {xs : List PyVal}
    (h : ∀ i ∈ xs, pyInStr "pull_request" i = Except.ok true) :
    issueBlocks xs = Except.ok [] := by
  induction xs with
  | nil => rfl
  | cons i rest ih =>
    have hi := h i (List.mem_cons_self i rest)
    have hrest := fun j hj => h j (List.mem_cons_of_mem i hj)
    simp [issueBlocks, hi, okBind, ih hrest]

/-- C9: every returned issue item that contains a `pull_request` key is
omitted from the output of `get_issues` (removing such an item anywhere in
the list leaves the produced blocks unchanged), and when the 200 response
is a non-empty list all of whose items are pull requests, the function
returns `No {state} issues found (excluding PRs).`. -/
theorem claim9_pr_filter :
    (∀ (i : PyVal) (pre post : List PyVal), pyInStr "pull_request" i = Except.ok true →
      issueBlocks (pre ++ i :: post) = issueBlocks (pre ++ post)) ∧
    (∀ (client : GetRequest → HttpResponse) (tok : Option String)
      (url owner repo state : String) (xs : List PyVal),
      searchGithub url = some (owner, repo) →
      (client (issuesRequest owner repo state tok)).status_code = 200 →
      (client (issuesRequest owner repo state tok)).json = PyVal.list xs →
      xs ≠ [] →
      (∀ i ∈ xs, pyInStr "pull_request" i = Except.ok true) →
      (get_issues client tok url state).1 =
        Except.ok s!"No {state} issues found (excluding PRs).") := by
  constructor
  · exact fun i pre post h => issueBlocks_skip pre post h
  · intro client tok url owner repo state xs h h200 hjson hne hall
    unfold get_issues
    rw [h]
    simp only [h200]
    simp [hjson, issuesBody, pyTruthy, hne, asIterList, okBind, issueBlocks_allPR hall, pureIsOk]

/-- Witness for C9: removing a pull-request item from a two-item list, and
a 200 response whose single item is a pull request. -/
theorem claim9_pr_filter_witness :
    issueBlocks ([PyVal.dict [("number", PyVal.int 1)]] ++
        PyVal.dict [("pull_request", PyVal.null)] :: []) =
      issueBlocks ([PyVal.dict [("number", PyVal.int 1)]] ++ []) ∧
    (get_issues (fun _ => ⟨200, "", PyVal.list [PyVal.dict [("pull_request", PyVal.null)]]⟩)
        none "https://github.com/o/r" "open").1 =
      Except.ok "No open issues found (excluding PRs)." :=
  ⟨claim9_pr_filter.1 (PyVal.dict [("pull_request", PyVal.null)])
      [PyVal.dict [("number", PyVal.int 1)]] [] rfl,
    claim9_pr_filter.2
      (fun _ => ⟨200, "", PyVal.list [PyVal.dict [("pull_request", PyVal.null)]]⟩)
      none "https://github.com/o/r" "o" "r" "open" [PyVal.dict [("pull_request", PyVal.null)]]
      (by decide) rfl rfl (List.cons_ne_nil _ _)
      (by intro i hi; simp only [List.mem_singleton] at hi; subst hi; rfl)⟩


/-- C8: on a 200 tree response, the string built by `get_repo_structure`
has one line per tree item whose path avoids the excluded substrings
`.git/`, `node_modules/` and `__pycache__/`, in response order, and no
line for any excluded item: the function returns the newline-join of
exactly those item lines, and splitting the result at newlines recovers
them. -/
theorem claim8_structure_lines (client : GetRequest → HttpResponse) (tok : Option String)
    (url owner repo : String) (fs : List (String × PyVal)) (tree : List PyVal)
    (h : searchGithub url = some (owner, repo))
    (h200 : (client (repoTreeRequest owner repo "main" tok)).status_code = 200)
    (hjson : (client (repoTreeRequest owner repo "main" tok)).json = PyVal.dict fs)
    (htree : lookupKey fs "tree" = some (PyVal.list tree))
    (hwf : ∀ i ∈ tree, wfTreeItem i = true)
    (hne : tree.filter keepItem ≠ []) :
    (get_repo_structure client tok url).1 =
      Except.ok (pyJoin "\n" ((tree.filter keepItem).map itemLine)) ∧
    splitLinesCL (pyJoin "\n" ((tree.filter keepItem).map itemLine)).data =
      ((tree.filter keepItem).map itemLine).map String.data := by
  constructor
  · unfold get_repo_structure
    rw [h]
    simp only [h200]
    simp [hjson, repoStructureBody, getItem, htree, asIterList, okBind,
      structureLines_wf hwf, pureIsOk]
  · have hmap_ne : (tree.filter keepItem).map itemLine ≠ [] := by
      simpa using hne
    have hnl : ∀ x ∈ (tree.filter keepItem).map itemLine, '\n' ∉ x.data := by
      intro x hx
      obtain ⟨i, hi, rfl⟩ := List.mem_map.mp hx
      have hit : i ∈ tree := List.mem_of_mem_filter hi
      have hw := hwf i hit
      unfold wfTreeItem at hw
      cases hp : field? i "path" with
      | none => rw [hp] at hw; simp at hw
      | some pv =>
        rw [hp] at hw
        cases pv with
        | str p =>
          simp only [Bool.and_eq_true] at hw
          have hnp : '\n' ∉ p.data := by
            have h1 := hw.1
            simp only [Bool.not_eq_true'] at h1
            intro hm
            have : p.data.contains '\n' = true := List.elem_iff.mpr hm
            rw [h1] at this
            exact Bool.false_ne_true this
          intro hmem
          unfold itemLine at hmem
          rw [data_append] at hmem
          rcases List.mem_append.mp hmem with hmem | hmem
          · by_cases ht : typeIsTree i = true
            · rw [if_pos ht] at hmem
              revert hmem
              decide
            · rw [if_neg ht] at hmem
              revert hmem
              decide
          · have hpa : pathOf i = p := by simp [pathOf, hp]
            rw [hpa] at hmem
            exact hnp hmem
        | null => simp at hw
        | bool b => simp at hw
        | int n => simp at hw
        | list l => simp at hw
        | dict d => simp at hw
    exact splitLines_pyJoin hmap_ne hnl

/-- Witness for C8: a three-item tree with one excluded `__pycache__/`
path. -/
theorem claim8_structure_lines_witness :
    (get_repo_structure
      (fun _ => ⟨200, "", PyVal.dict [("tree", PyVal.list
        [PyVal.dict [("path", PyVal.str "src"), ("type", PyVal.str "tree")],
         PyVal.dict [("path", PyVal.str "src/app.py"), ("type", PyVal.str "blob")],
         PyVal.dict [("path", PyVal.str "__pycache__/x.pyc"), ("type", PyVal.str "blob")]])]⟩)
      none "https://github.com/o/r").1 =
      Except.ok (pyJoin "\n" ((([PyVal.dict [("path", PyVal.str "src"), ("type", PyVal.str "tree")],
         PyVal.dict [("path", PyVal.str "src/app.py"), ("type", PyVal.str "blob")],
         PyVal.dict [("path", PyVal.str "__pycache__/x.pyc"), ("type", PyVal.str "blob")]].filter
           keepItem)).map itemLine)) ∧
    splitLinesCL (pyJoin "\n" ((([PyVal.dict [("path", PyVal.str "src"), ("type", PyVal.str "tree")],
         PyVal.dict [("path", PyVal.str "src/app.py"), ("type", PyVal.str "blob")],
         PyVal.dict [("path", PyVal.str "__pycache__/x.pyc"), ("type", PyVal.str "blob")]].filter
           keepItem)).map itemLine)).data =
      ((([PyVal.dict [("path", PyVal.str "src"), ("type", PyVal.str "tree")],
         PyVal.dict [("path", PyVal.str "src/app.py"), ("type", PyVal.str "blob")],
         PyVal.dict [("path", PyVal.str "__pycache__/x.pyc"), ("type", PyVal.str "blob")]].filter
           keepItem)).map itemLine).map String.data :=
  claim8_structure_lines
    (fun _ => ⟨200, "", PyVal.dict [("tree", PyVal.list
      [PyVal.dict [("path", PyVal.str "src"), ("type", PyVal.str "tree")],
       PyVal.dict [("path", PyVal.str "src/app.py"), ("type", PyVal.str "blob")],
       PyVal.dict [("path", PyVal.str "__pycache__/x.pyc"), ("type", PyVal.str "blob")]])]⟩)
    none "https://github.com/o/r" "o" "r"
    [("tree", PyVal.list
      [PyVal.dict [("path", PyVal.str "src"), ("type", PyVal.str "tree")],
       PyVal.dict [("path", PyVal.str "src/app.py"), ("type", PyVal.str "blob")],
       PyVal.dict [("path", PyVal.str "__pycache__/x.pyc"), ("type", PyVal.str "blob")]])]
    [PyVal.dict [("path", PyVal.str "src"), ("type", PyVal.str "tree")],
     PyVal.dict [("path", PyVal.str "src/app.py"), ("type", PyVal.str "blob")],
     PyVal.dict [("path", PyVal.str "__pycache__/x.pyc"), ("type", PyVal.str "blob")]]
    (by decide) rfl rfl rfl
    (by
      intro i hi
      rcases List.mem_cons.mp hi with rfl | hi
      · rfl
      rcases List.mem_cons.mp hi with rfl | hi
      · rfl
      rcases List.mem_cons.mp hi with rfl | hi
      · rfl
      · exact absurd hi (List.not_mem_nil i))
    (fun hx => List.noConfusion hx)

theorem repoInfo_success (client : GetRequest → HttpResponse) (tok : Option String)
    (url owner repo : String) (data : PyVal)
    (h : searchGithub url = some (owner, repo))
    (h200 : (client (repoInfoRequest owner repo tok)).status_code = 200)
    (hjson : (client (repoInfoRequest owner repo tok)).json = data)
    (hsz : ∃ n, field? data "size" = some (PyVal.int n))
    (how : ∃ ow lg, field? data "owner" = some ow ∧ field? ow "login" = some lg)
    (hfc : (field? data "forks_count").isSome)
    (hoi : (field? data "open_issues_count").isSome)
    (hdb : (field? data "default_branch").isSome)
    (hvis : (field? data "visibility").isSome)
    (htp : topicsOK data = true)
    (hlic : licenseOK data = true)
    (hfn : (field? data "full_name").isSome)
    (hde : (field? data "description").isSome)
    (hst : (field? data "stargazers_count").isSome)
    (hlang : (field? data "language").isSome)
    (hca : (field? data "created_at").isSome)
    (hua : (field? data "updated_at").isSome) :
    ∃ s, (get_repo_info client tok url).1 = Except.ok s ∧ s ≠ "" := by
  obtain ⟨s, hs, hne⟩ := repoInfoBody_ok owner repo hsz how hfc hoi hdb hvis htp hlic hfn hde
    hst hlang hca hua
  refine ⟨s, ?_, hne⟩
  unfold get_repo_info
  rw [h]
  simp only [h200]
  simp [hjson, hs]

theorem structure_success (client : GetRequest → HttpResponse) (tok : Option String)
    (url owner repo : String) (fs : List (String × PyVal)) (tree : List PyVal)
    (h : searchGithub url = some (owner, repo))
    (h200 : (client (repoTreeRequest owner repo "main" tok)).status_code = 200)
    (hjson : (client (repoTreeRequest owner repo "main" tok)).json = PyVal.dict fs)
    (htree : lookupKey fs "tree" = some (PyVal.list tree))
    (hwf : ∀ i ∈ tree, wfTreeItem i = true)
    (hne : tree.filter keepItem ≠ []) :
    ∃ s, (get_repo_structure client tok url).1 = Except.ok s ∧ s ≠ "" := by
  refine ⟨pyJoin "\n" ((tree.filter keepItem).map itemLine), ?_, ?_⟩
  · unfold get_repo_structure
    rw [h]
    simp only [h200]
    simp [hjson, repoStructureBody, getItem, htree, asIterList, okBind,
      structureLines_wf hwf, pureIsOk]
  · apply ne_empty_of_data
    apply pyJoin_data_ne_nil (by simpa using hne)
    intro x hx
    obtain ⟨i, hi, rfl⟩ := List.mem_map.mp hx
    unfold itemLine
    rw [data_append]
    intro hh
    have h1 := (List.append_eq_nil.mp hh).1
    by_cases ht : typeIsTree i = true
    · rw [if_pos ht] at h1
      revert h1
      decide
    · rw [if_neg ht] at h1
      revert h1
      decide

theorem fileContent_success (client : GetRequest → HttpResponse) (tok : Option String)
    (url file_path owner repo : String) (fs : List (String × PyVal)) (b64 txt : String)
    (h : searchGithub url = some (owner, repo))
    (h200 : (client (fileContentRequest owner repo file_path tok)).status_code = 200)
    (hjson : (client (fileContentRequest owner repo file_path tok)).json = PyVal.dict fs)
    (hty : lookupKey fs "type" = some (PyVal.str "file"))
    (hct : lookupKey fs "content" = some (PyVal.str b64))
    (hdec : b64utf8 b64 = Except.ok txt) :
    ∃ s, (get_file_content client tok url file_path).1 = Except.ok s ∧ s ≠ "" := by
  refine ⟨"File: " ++ file_path ++ "\n\n" ++ txt, ?_, ?_⟩
  · unfold get_file_content
    rw [h]
    simp only [h200]
    simp [hjson, fileContentBody, dictGet, hty, okBind, pyEqStr, getItem, hct, asStr,
      hdec, pureIsOk]
  · apply append_ne_empty_left
    rw [data_append, data_append]
    intro hh
    have h1 := (List.append_eq_nil.mp (List.append_eq_nil.mp hh).1).1
    revert h1
    decide

theorem issues_success (client : GetRequest → HttpResponse) (tok : Option String)
    (url owner repo state : String) (xs : List PyVal)
    (h : searchGithub url = some (owner, repo))
    (h200 : (client (issuesRequest owner repo state tok)).status_code = 200)
    (hjson : (client (issuesRequest owner repo state tok)).json = PyVal.list xs)
    (hwf : ∀ i ∈ xs, wfIssue i = true) :
    ∃ s, (get_issues client tok url state).1 = Except.ok s ∧ s ≠ "" := by
  have hred : (get_issues client tok url state).1 = issuesBody state (PyVal.list xs) := by
    unfold get_issues
    rw [h]
    simp [h200, hjson]
  cases xs with
  | nil =>
    refine ⟨s!"No {state} issues found.", ?_, ?_⟩
    · rw [hred]
      simp [issuesBody, pyTruthy]
    · apply append3_ne_empty
      decide
  | cons x rest =>
    obtain ⟨bs, hbs, hbne⟩ := issueBlocks_wf hwf
    cases hb : bs with
    | nil =>
      refine ⟨s!"No {state} issues found (excluding PRs).", ?_, ?_⟩
      · rw [hred]
        subst hb
        simp [issuesBody, pyTruthy, asIterList, okBind, hbs, pureIsOk]
      · apply append3_ne_empty
        decide
    | cons b bt =>
      refine ⟨pyJoin "\n" bs, ?_, ?_⟩
      · rw [hred]
        simp [issuesBody, pyTruthy, asIterList, okBind, hbs, pureIsOk, hb]
      · apply ne_empty_of_data
        exact pyJoin_data_ne_nil (by simp [hb]) hbne

theorem pulls_success (client : GetRequest → HttpResponse) (tok : Option String)
    (url owner repo state : String) (xs : List PyVal)
    (h : searchGithub url = some (owner, repo))
    (h200 : (client (pullsRequest owner repo state tok)).status_code = 200)
    (hjson : (client (pullsRequest owner repo state tok)).json = PyVal.list xs)
    (hwf : ∀ i ∈ xs, wfPR i = true) :
    ∃ s, (get_pull_requests client tok url state).1 = Except.ok s ∧ s ≠ "" := by
  have hred : (get_pull_requests client tok url state).1 = pullsBody state (PyVal.list xs) := by
    unfold get_pull_requests
    rw [h]
    simp [h200, hjson]
  cases xs with
  | nil =>
    refine ⟨s!"No {state} pull requests found.", ?_, ?_⟩
    · rw [hred]
      simp [pullsBody, pyTruthy]
    · apply append3_ne_empty
      decide
  | cons x rest =>
    obtain ⟨bs, hbs, hbne, hlen⟩ := prBlocks_wf hwf
    have hbsne : bs ≠ [] := by
      intro hx
      rw [hx] at hlen
      simp at hlen
    refine ⟨pyJoin "\n" bs, ?_, ?_⟩
    · rw [hred]
      simp [pullsBody, pyTruthy, asIterList, okBind, hbs, pureIsOk]
    · exact ne_empty_of_data (pyJoin_data_ne_nil hbsne hbne)

/-- C4: for every well-formed URL and every 200 response carrying JSON of
the shape the corresponding GitHub endpoint documents (the fields each
function reads, stated as hypotheses), each of the five query functions
returns a non-empty summary string and raises no exception. -/
theorem claim4_success_nonempty :
    (∀ (client : GetRequest → HttpResponse) (tok : Option String) (url owner repo : String)
      (data : PyVal),
      searchGithub url = some (owner, repo) →
      (client (repoInfoRequest owner repo tok)).status_code = 200 →
      (client (repoInfoRequest owner repo tok)).json = data →
      (∃ n, field? data "size" = some (PyVal.int n)) →
      (∃ ow lg, field? data "owner" = some ow ∧ field? ow "login" = some lg) →
      (field? data "forks_count").isSome →
      (field? data "open_issues_count").isSome →
      (field? data "default_branch").isSome →
      (field? data "visibility").isSome →
      topicsOK data = true →
      licenseOK data = true →
      (field? data "full_name").isSome →
      (field? data "description").isSome →
      (field? data "stargazers_count").isSome →
      (field? data "language").isSome →
      (field? data "created_at").isSome →
      (field? data "updated_at").isSome →
      ∃ s, (get_repo_info client tok url).1 = Except.ok s ∧ s ≠ "") ∧
    (∀ (client : GetRequest → HttpResponse) (tok : Option String) (url owner repo : String)
      (fs : List (String × PyVal)) (tree : List PyVal),
      searchGithub url = some (owner, repo) →
      (client (repoTreeRequest owner repo "main" tok)).status_code = 200 →
      (client (repoTreeRequest owner repo "main" tok)).json = PyVal.dict fs →
      lookupKey fs "tree" = some (PyVal.list tree) →
      (∀ i ∈ tree, wfTreeItem i = true) →
      tree.filter keepItem ≠ [] →
      ∃ s, (get_repo_structure client tok url).1 = Except.ok s ∧ s ≠ "") ∧
    (∀ (client : GetRequest → HttpResponse) (tok : Option String)
      (url file_path owner repo : String) (fs : List (String × PyVal)) (b64 txt : String),
      searchGithub url = some (owner, repo) →
      (client (fileContentRequest owner repo file_path tok)).status_code = 200 →
      (client (fileContentRequest owner repo file_path tok)).json = PyVal.dict fs →
      lookupKey fs "type" = some (PyVal.str "file") →
      lookupKey fs "content" = some (PyVal.str b64) →
      b64utf8 b64 = Except.ok txt →
      ∃ s, (get_file_content client tok url file_path).1 = Except.ok s ∧ s ≠ "") ∧
    (∀ (client : GetRequest → HttpResponse) (tok : Option String)
      (url owner repo state : String) (xs : List PyVal),
      searchGithub url = some (owner, repo) →
      (client (issuesRequest owner repo state tok)).status_code = 200 →
      (client (issuesRequest owner repo state tok)).json = PyVal.list xs →
      (∀ i ∈ xs, wfIssue i = true) →
      ∃ s, (get_issues client tok url state).1 = Except.ok s ∧ s ≠ "") ∧
    (∀ (client : GetRequest → HttpResponse) (tok : Option String)
      (url owner repo state : String) (xs : List PyVal),
      searchGithub url = some (owner, repo) →
      (client (pullsRequest owner repo state tok)).status_code = 200 →
      (client (pullsRequest owner repo state tok)).json = PyVal.list xs →
      (∀ i ∈ xs, wfPR i = true) →
      ∃ s, (get_pull_requests client tok url state).1 = Except.ok s ∧ s ≠ "") :=
  ⟨repoInfo_success, structure_success, fileContent_success, issues_success, pulls_success⟩

/-- Witness for C4: concrete 200 responses of the documented shapes for
each of the five functions. -/
theorem claim4_success_nonempty_witness :
    (∃ s, (get_repo_info (fun _ => ⟨200, "", sampleRepoInfo⟩) none
      "https://github.com/o/r").1 = Except.ok s ∧ s ≠ "") ∧
    (∃ s, (get_repo_structure (fun _ => ⟨200, "", PyVal.dict [("tree", PyVal.list sampleTree)]⟩)
      none "https://github.com/o/r").1 = Except.ok s ∧ s ≠ "") ∧
    (∃ s, (get_file_content (fun _ => ⟨200, "",
      PyVal.dict [("type", PyVal.str "file"), ("content", PyVal.str "aGk=")]⟩)
      none "https://github.com/o/r" "README.md").1 = Except.ok s ∧ s ≠ "") ∧
    (∃ s, (get_issues (fun _ => ⟨200, "", PyVal.list [sampleIssue]⟩) none
      "https://github.com/o/r" "open").1 = Except.ok s ∧ s ≠ "") ∧
    (∃ s, (get_pull_requests (fun _ => ⟨200, "", PyVal.list [samplePull]⟩) none
      "https://github.com/o/r" "open").1 = Except.ok s ∧ s ≠ "") :=
  ⟨claim4_success_nonempty.1 (fun _ => ⟨200, "", sampleRepoInfo⟩) none
      "https://github.com/o/r" "o" "r" sampleRepoInfo (by decide) rfl rfl
      ⟨2048, rfl⟩ ⟨PyVal.dict [("login", PyVal.str "o")], PyVal.str "o", rfl, rfl⟩
      rfl rfl rfl rfl rfl rfl rfl rfl rfl rfl rfl rfl,
    claim4_success_nonempty.2.1 (fun _ => ⟨200, "", PyVal.dict [("tree", PyVal.list sampleTree)]⟩)
      none "https://github.com/o/r" "o" "r" [("tree", PyVal.list sampleTree)] sampleTree
      (by decide) rfl rfl rfl
      (by
        intro i hi
        rcases List.mem_cons.mp hi with rfl | hi
        · rfl
        · exact absurd hi (List.not_mem_nil i))
      (fun hx => List.noConfusion hx),
    claim4_success_nonempty.2.2.1 (fun _ => ⟨200, "",
        PyVal.dict [("type", PyVal.str "file"), ("content", PyVal.str "aGk=")]⟩)
      none "https://github.com/o/r" "README.md" "o" "r"
      [("type", PyVal.str "file"), ("content", PyVal.str "aGk=")] "aGk=" "hi"
      (by decide) rfl rfl rfl rfl rfl,
    claim4_success_nonempty.2.2.2.1 (fun _ => ⟨200, "", PyVal.list [sampleIssue]⟩) none
      "https://github.com/o/r" "o" "r" "open" [sampleIssue] (by decide) rfl rfl
      (by
        intro i hi
        rcases List.mem_cons.mp hi with rfl | hi
        · rfl
        · exact absurd hi (List.not_mem_nil i)),
    claim4_success_nonempty.2.2.2.2 (fun _ => ⟨200, "", PyVal.list [samplePull]⟩) none
      "https://github.com/o/r" "o" "r" "open" [samplePull] (by decide) rfl rfl
      (by
        intro i hi
        rcases List.mem_cons.mp hi with rfl | hi
        · rfl
        · exact absurd hi (List.not_mem_nil i))⟩
